import Mathlib

/-!
Shallow embedding of the supervisual data mapper (`dataMapper`, `mapNodes`,
`mapEdges`).

Conventions of the embedding:
* blockchain addresses and entity ids are `String`s (the snapshot arrives
  lower-cased);
* numeric fields that the source routes through `BigInt` (flow rates, units,
  total units) are `Int`; JS `BigInt` division truncates toward zero, which is
  exactly `Int.tdiv`;
* block numbers and timestamps are routed through JS `Number` in the source.
  The only non-integer values that can arise are the `Infinity` / `-Infinity`
  produced by `Math.min()` / `Math.max()` applied to an empty spread, so a JS
  number is modelled by `JSNum`: an exact integer or one of the two infinities;
* the address-checksumming collaborator (`getAddress` from viem) and the
  label-shortening collaborator (`shortenHex`) are external to the core and are
  passed as function parameters (the snapshot is assumed well-formed, so
  `getAddress` is total here);
* `fromUnixTime` only repackages an epoch-seconds value as a calendar date, so
  the `timestamp` of `latestBlock` keeps the raw integer;
* the JS runtime error raised by `data._meta!.block` when `_meta` is absent is
  modelled by `dataMapper` returning `none`.
-/

/-- A JS number as it occurs in this program: an exact integer, or one of the
two infinities that `Math.min()` / `Math.max()` return on an empty argument
spread. -/
inductive JSNum where
  | negInf : JSNum
  | fin : Int → JSNum
  | posInf : JSNum
deriving DecidableEq

/-- Binary minimum of JS numbers (`Math.min` on two arguments). -/
def JSNum.min2 : JSNum → JSNum → JSNum
  | .negInf, _ => .negInf
  | _, .negInf => .negInf
  | .posInf, b => b
  | a, .posInf => a
  | .fin a, .fin b => .fin (min a b)

/-- Binary maximum of JS numbers (`Math.max` on two arguments). -/
def JSNum.max2 : JSNum → JSNum → JSNum
  | .posInf, _ => .posInf
  | _, .posInf => .posInf
  | .negInf, b => b
  | a, .negInf => a
  | .fin a, .fin b => .fin (max a b)

/-- JS `Math.min(...list)`: the empty spread yields `Infinity`. -/
def mathMin (l : List JSNum) : JSNum := l.foldr JSNum.min2 .posInf

/-- JS `Math.max(...list)`: the empty spread yields `-Infinity`. -/
def mathMax (l : List JSNum) : JSNum := l.foldr JSNum.max2 .negInf

/-- A super token as referenced by pools and streams. -/
structure Token where
  id : String
  symbol : String
deriving DecidableEq

/-- One per-token balance snapshot of a selected account
(`accountTokenSnapshots` entries). -/
structure AccountTokenSnapshot where
  createdAtBlockNumber : Int
  createdAtTimestamp : Int
  updatedAtBlockNumber : Int
  updatedAtTimestamp : Int
deriving DecidableEq

/-- A selected account (`data.selectedAccounts` entries). -/
structure Account where
  id : String
  isSuperApp : Bool
  createdAtBlockNumber : Int
  createdAtTimestamp : Int
  updatedAtBlockNumber : Int
  updatedAtTimestamp : Int
  accountTokenSnapshots : List AccountTokenSnapshot
deriving DecidableEq

/-- An account as embedded in a relation (`x.account`, `x.sender`,
`x.receiver`): only `id` and `isSuperApp` are read. -/
structure AccountRef where
  id : String
  isSuperApp : Bool
deriving DecidableEq

/-- A pool as embedded in a membership or distributorship (`x.pool`). -/
structure PoolRef where
  id : String
  token : Token
  flowRate : Int
  totalUnits : Int
  createdAtBlockNumber : Int
  createdAtTimestamp : Int
  updatedAtBlockNumber : Int
  updatedAtTimestamp : Int
deriving DecidableEq

/-- A pool-membership relation (`data.poolMembers` entries and the
`poolMembers` embedded in selected pools). -/
structure PoolMember where
  pool : PoolRef
  account : AccountRef
  units : Int
  createdAtBlockNumber : Int
  createdAtTimestamp : Int
  updatedAtBlockNumber : Int
  updatedAtTimestamp : Int
deriving DecidableEq

/-- A pool-distributorship relation (`data.poolDistributors` entries and the
`poolDistributors` embedded in selected pools). -/
structure PoolDistributor where
  pool : PoolRef
  account : AccountRef
  flowRate : Int
  createdAtBlockNumber : Int
  createdAtTimestamp : Int
  updatedAtBlockNumber : Int
  updatedAtTimestamp : Int
deriving DecidableEq

/-- A payment-stream relation (`data.streams` entries). -/
structure PaymentStream where
  token : Token
  sender : AccountRef
  receiver : AccountRef
  currentFlowRate : Int
  createdAtBlockNumber : Int
  createdAtTimestamp : Int
  updatedAtBlockNumber : Int
  updatedAtTimestamp : Int
deriving DecidableEq

/-- A selected pool (`data.selectedPools` entries), embedding its own
memberships and distributorships. -/
structure SelectedPool where
  id : String
  createdAtBlockNumber : Int
  createdAtTimestamp : Int
  updatedAtBlockNumber : Int
  updatedAtTimestamp : Int
  poolMembers : List PoolMember
  poolDistributors : List PoolDistributor
deriving DecidableEq

/-- Chain-head metadata (`data._meta.block`). -/
structure BlockMeta where
  number : Int
  timestamp : Int
deriving DecidableEq

/-- The input snapshot (`AllRelevantEntitiesQuery`); `_meta` is the optional
head-block metadata. -/
structure QueryData where
  selectedAccounts : List Account
  selectedPools : List SelectedPool
  poolMembers : List PoolMember
  poolDistributors : List PoolDistributor
  streams : List PaymentStream
  _meta : Option BlockMeta
deriving DecidableEq

/-- The data carried by a candidate node record (`PartialNode["data"]`): the
three flags are TS-optional, the block/timestamp fields are mandatory. -/
structure PartialNodeData where
  isPool : Option Bool := none
  isSelected : Option Bool := none
  isSuperApp : Option Bool := none
  createdAtBlockNumber : JSNum
  createdAtTimestamp : JSNum
  updatedAtBlockNumber : JSNum
  updatedAtTimestamp : JSNum
deriving DecidableEq

/-- A candidate node record (`PartialNode`). -/
structure PartialNode where
  id : String
  data : PartialNodeData
deriving DecidableEq

/-- The data carried by a finished node (`MyNode["data"]`). -/
structure MyNodeData where
  chain : Int
  address : String
  isPool : Option Bool
  isSelected : Option Bool
  label : String
  isSuperApp : Option Bool
  createdAtBlockNumber : JSNum
  createdAtTimestamp : JSNum
  updatedAtBlockNumber : JSNum
  updatedAtTimestamp : JSNum
deriving DecidableEq

/-- A finished node (`MyNode`): reactflow `type` tag and the neutral `(0,0)`
position placeholder included. -/
structure MyNode where
  id : String
  data : MyNodeData
  type : String
  posX : Int
  posY : Int
deriving DecidableEq

/-- The data carried by a candidate edge (`PartialEdge["data"]`): token and
flow rate, no parallel-edge metadata yet. -/
structure PartialEdgeData where
  token : Token
  flowRate : Int
deriving DecidableEq

/-- A candidate edge record (`PartialEdge`). -/
structure PartialEdge where
  id : String
  source : String
  target : String
  data : PartialEdgeData
deriving DecidableEq

/-- Parallel-edge layout metadata (the `something` field): how many surviving
edges share this edge's unordered endpoint pair, and this edge's position among
them. -/
structure SomethingData where
  length : Nat
  index : Nat
deriving DecidableEq

/-- The data carried by a finished edge (`MyEdgeData`). -/
structure MyEdgeData where
  token : Token
  flowRate : Int
  something : SomethingData
deriving DecidableEq

/-- A finished edge (`MyEdge`), with the rendering tags set in finalization. -/
structure MyEdge where
  id : String
  source : String
  target : String
  animated : Bool
  type : String
  data : MyEdgeData
deriving DecidableEq

/-- The mapper's result (`MyMappedData`); `latestBlock` keeps the head block
number together with the epoch-seconds value `fromUnixTime` repackages. -/
structure MyMappedData where
  nodes : List MyNode
  edges : List MyEdge
  latestBlock : Option BlockMeta
deriving DecidableEq

/-- The distinct values of `key` over `l`, in order of first occurrence: the
key set of lodash `groupBy` as `Object.entries` enumerates it (ids are
non-index strings, so entries come in insertion order). -/
def keysInOrder {α : Type} (key : α → String) (l : List α) : List String :=
  l.foldl (fun acc x => if key x ∈ acc then acc else acc ++ [key x]) []

/-- lodash `groupBy key l` followed by `Object.entries(...).map(([, g]) => g)`:
the groups in first-occurrence order of their keys, each group keeping the
order of `l`. -/
def groupValues {α : Type} (key : α → String) (l : List α) : List (List α) :=
  (keysInOrder key l).map (fun k => l.filter (fun x => key x = k))

/-- Candidate from one selected account (`nodesFromAccounts`). In the source
each block/timestamp reads `Math.min(...snapshots) ?? Number(x.field)`: since
`Math.min` / `Math.max` always return a number (the infinities on an empty
spread), the `??` fallback can never fire and the value is just the spread
min/max. -/
def accountNode (x : Account) : PartialNode :=
  { id := x.id
    data :=
      { isSuperApp := some x.isSuperApp
        createdAtBlockNumber :=
          mathMin (x.accountTokenSnapshots.map (fun y => JSNum.fin y.createdAtBlockNumber))
        createdAtTimestamp :=
          mathMin (x.accountTokenSnapshots.map (fun y => JSNum.fin y.createdAtTimestamp))
        updatedAtBlockNumber :=
          mathMax (x.accountTokenSnapshots.map (fun y => JSNum.fin y.updatedAtBlockNumber))
        updatedAtTimestamp :=
          mathMax (x.accountTokenSnapshots.map (fun y => JSNum.fin y.updatedAtTimestamp))
        isSelected := some true } }

/-- `nodesFromAccounts`. -/
def nodesFromAccounts (data : QueryData) : List PartialNode :=
  data.selectedAccounts.map accountNode

/-- Candidate from one selected pool (`nodesFromPools`). The source computes
this list but never adds it to `nodesButRedundant`, so it reaches no output. -/
def poolSelectedNode (x : SelectedPool) : PartialNode :=
  { id := x.id
    data :=
      { isPool := some true
        isSelected := some true
        createdAtBlockNumber := JSNum.fin x.createdAtBlockNumber
        createdAtTimestamp := JSNum.fin x.createdAtTimestamp
        updatedAtBlockNumber := JSNum.fin x.updatedAtBlockNumber
        updatedAtTimestamp := JSNum.fin x.updatedAtTimestamp } }

/-- `nodesFromPools` (dead in the source: computed, never concatenated). -/
def nodesFromPools (data : QueryData) : List PartialNode :=
  data.selectedPools.map poolSelectedNode

/-- The flat membership list concatenated with the memberships embedded in
selected pools (`data.poolMembers.concat(data.selectedPools.map(x =>
x.poolMembers).flat())`). -/
def allPoolMembers (data : QueryData) : List PoolMember :=
  data.poolMembers ++ (data.selectedPools.map (fun x => x.poolMembers)).flatten

/-- Likewise for distributorships. -/
def allPoolDistributors (data : QueryData) : List PoolDistributor :=
  data.poolDistributors ++ (data.selectedPools.map (fun x => x.poolDistributors)).flatten

/-- The pool candidate a membership emits. -/
def memberPoolNode (x : PoolMember) : PartialNode :=
  { id := x.pool.id
    data :=
      { isPool := some true
        createdAtBlockNumber := JSNum.fin x.pool.createdAtBlockNumber
        createdAtTimestamp := JSNum.fin x.pool.createdAtTimestamp
        updatedAtBlockNumber := JSNum.fin x.pool.updatedAtBlockNumber
        updatedAtTimestamp := JSNum.fin x.pool.updatedAtTimestamp } }

/-- The member-account candidate a membership emits (the relation's own
block/timestamp fields, not the account's). -/
def memberAccountNode (x : PoolMember) : PartialNode :=
  { id := x.account.id
    data :=
      { isSuperApp := some x.account.isSuperApp
        createdAtBlockNumber := JSNum.fin x.createdAtBlockNumber
        createdAtTimestamp := JSNum.fin x.createdAtTimestamp
        updatedAtBlockNumber := JSNum.fin x.updatedAtBlockNumber
        updatedAtTimestamp := JSNum.fin x.updatedAtTimestamp } }

/-- `nodesFromPoolMembers`. -/
def nodesFromPoolMembers (data : QueryData) : List PartialNode :=
  ((allPoolMembers data).map (fun x => [memberPoolNode x, memberAccountNode x])).flatten

/-- The pool candidate a distributorship emits. -/
def distributorPoolNode (x : PoolDistributor) : PartialNode :=
  { id := x.pool.id
    data :=
      { isPool := some true
        createdAtBlockNumber := JSNum.fin x.pool.createdAtBlockNumber
        createdAtTimestamp := JSNum.fin x.pool.createdAtTimestamp
        updatedAtBlockNumber := JSNum.fin x.pool.updatedAtBlockNumber
        updatedAtTimestamp := JSNum.fin x.pool.updatedAtTimestamp } }

/-- The distributor-account candidate a distributorship emits (the relation's
own block/timestamp fields). -/
def distributorAccountNode (x : PoolDistributor) : PartialNode :=
  { id := x.account.id
    data :=
      { isSuperApp := some x.account.isSuperApp
        createdAtBlockNumber := JSNum.fin x.createdAtBlockNumber
        createdAtTimestamp := JSNum.fin x.createdAtTimestamp
        updatedAtBlockNumber := JSNum.fin x.updatedAtBlockNumber
        updatedAtTimestamp := JSNum.fin x.updatedAtTimestamp } }

/-- `nodesFromPoolDistributors`. -/
def nodesFromPoolDistributors (data : QueryData) : List PartialNode :=
  ((allPoolDistributors data).map
    (fun x => [distributorPoolNode x, distributorAccountNode x])).flatten

/-- The receiver candidate a stream emits. -/
def streamReceiverNode (x : PaymentStream) : PartialNode :=
  { id := x.receiver.id
    data :=
      { isSuperApp := some x.receiver.isSuperApp
        createdAtBlockNumber := JSNum.fin x.createdAtBlockNumber
        createdAtTimestamp := JSNum.fin x.createdAtTimestamp
        updatedAtBlockNumber := JSNum.fin x.updatedAtBlockNumber
        updatedAtTimestamp := JSNum.fin x.updatedAtTimestamp } }

/-- The sender candidate a stream emits. -/
def streamSenderNode (x : PaymentStream) : PartialNode :=
  { id := x.sender.id
    data :=
      { isSuperApp := some x.sender.isSuperApp
        createdAtBlockNumber := JSNum.fin x.createdAtBlockNumber
        createdAtTimestamp := JSNum.fin x.createdAtTimestamp
        updatedAtBlockNumber := JSNum.fin x.updatedAtBlockNumber
        updatedAtTimestamp := JSNum.fin x.updatedAtTimestamp } }

/-- `nodesFromStreams` (receiver first, then sender, as in the source). -/
def nodesFromStreams (data : QueryData) : List PartialNode :=
  (data.streams.map (fun x => [streamReceiverNode x, streamSenderNode x])).flatten

/-- `nodesButRedundant`: accounts, memberships, distributorships, streams.
`nodesFromPools` is not included (mirroring the source). -/
def nodesButRedundant (data : QueryData) : List PartialNode :=
  nodesFromAccounts data ++ nodesFromPoolMembers data ++
    nodesFromPoolDistributors data ++ nodesFromStreams data

/-- Merge one `groupBy` group of node candidates: a singleton group is kept
as-is, a larger group gets OR-ed flags (JS truthiness: an absent flag reads as
false) and MIN/MAX block/timestamps. `Object.entries` yields no empty group, so
the `[]` case returns `none` and is dropped by `filterMap`. -/
def mergeNodeGroup : List PartialNode → Option PartialNode
  | [] => none
  | root :: rest =>
    some <|
      if rest.isEmpty then root
      else
        { root with
          data :=
            { root.data with
              isPool := some ((root :: rest).any (fun x => x.data.isPool.getD false))
              isSuperApp := some ((root :: rest).any (fun x => x.data.isSuperApp.getD false))
              isSelected :=
                some ((root :: rest).foldl (fun acc x => acc || x.data.isSelected.getD false) false)
              createdAtBlockNumber :=
                mathMin ((root :: rest).map (fun x => x.data.createdAtBlockNumber))
              createdAtTimestamp :=
                mathMin ((root :: rest).map (fun x => x.data.createdAtTimestamp))
              updatedAtBlockNumber :=
                mathMax ((root :: rest).map (fun x => x.data.updatedAtBlockNumber))
              updatedAtTimestamp :=
                mathMax ((root :: rest).map (fun x => x.data.updatedAtTimestamp)) } }

/-- `uniqMergedNodes`: group the candidates by id and merge each group. -/
def uniqMergedNodes (l : List PartialNode) : List PartialNode :=
  (groupValues (fun x => x.id) l).filterMap mergeNodeGroup

/-- Finalization of one node (`nodesWithFullData` body): checksum the id,
attach chain, label, rendering tag and the neutral position. -/
def finalizeNode (chain : Int) (getAddress shortenHex : String → String)
    (node : PartialNode) : MyNode :=
  let address := getAddress node.id
  { id := node.id
    data :=
      { chain := chain
        address := address
        isPool := node.data.isPool
        isSelected := node.data.isSelected
        label := shortenHex address
        isSuperApp := node.data.isSuperApp
        createdAtBlockNumber := node.data.createdAtBlockNumber
        createdAtTimestamp := node.data.createdAtTimestamp
        updatedAtBlockNumber := node.data.updatedAtBlockNumber
        updatedAtTimestamp := node.data.updatedAtTimestamp }
    type := "custom"
    posX := 0
    posY := 0 }

/-- `mapNodes`. -/
def mapNodes (chain : Int) (getAddress shortenHex : String → String)
    (data : QueryData) : List MyNode :=
  (uniqMergedNodes (nodesButRedundant data)).map (finalizeNode chain getAddress shortenHex)

/-- The edge a distributorship emits: distributor account → pool, direct flow
rate. -/
def distributorEdge (x : PoolDistributor) : PartialEdge :=
  { id := x.pool.token.id ++ "-" ++ x.account.id ++ "-" ++ x.pool.id
    source := x.account.id
    target := x.pool.id
    data :=
      { token := { id := x.pool.token.id, symbol := x.pool.token.symbol }
        flowRate := x.flowRate } }

/-- `edgesFromPoolDistributors`. -/
def edgesFromPoolDistributors (data : QueryData) : List PartialEdge :=
  (allPoolDistributors data).map distributorEdge

/-- The edge a membership emits: pool → member account. The flow rate is the
guarded proportional share `pool.flowRate * pool.totalUnits / units` (`BigInt`
division truncates toward zero, hence `Int.tdiv`); the guard forces 0 when
`units > 0` fails, so the division is never reached with a zero divisor. -/
def memberEdge (x : PoolMember) : PartialEdge :=
  { id := x.pool.token.id ++ "-" ++ x.pool.id ++ "-" ++ x.account.id
    source := x.pool.id
    target := x.account.id
    data :=
      { token := { id := x.pool.token.id, symbol := x.pool.token.symbol }
        flowRate :=
          if 0 < x.units then Int.tdiv (x.pool.flowRate * x.pool.totalUnits) x.units
          else 0 } }

/-- `edgesFromPoolMembers`. -/
def edgesFromPoolMembers (data : QueryData) : List PartialEdge :=
  (allPoolMembers data).map memberEdge

/-- The edge a stream emits: sender → receiver, direct current flow rate. -/
def streamEdge (x : PaymentStream) : PartialEdge :=
  { id := x.token.id ++ "-" ++ x.sender.id ++ "-" ++ x.receiver.id
    source := x.sender.id
    target := x.receiver.id
    data :=
      { token := { id := x.token.id, symbol := x.token.symbol }
        flowRate := x.currentFlowRate } }

/-- `edgesFromStreams`. -/
def edgesFromStreams (data : QueryData) : List PartialEdge :=
  data.streams.map streamEdge

/-- `edgesButRedundant`: memberships, streams, distributorships, in source
order. -/
def edgesButRedundant (data : QueryData) : List PartialEdge :=
  edgesFromPoolMembers data ++ edgesFromStreams data ++ edgesFromPoolDistributors data

/-- Merge one `groupBy` group of edge candidates: a singleton group is kept
as-is, a larger group keeps the first candidate's endpoints and token but sums
the flow rates (`reduce((acc, x) => acc + x.flowRate, 0n)`). -/
def mergeEdgeGroup : List PartialEdge → Option PartialEdge
  | [] => none
  | root :: rest =>
    some <|
      if rest.isEmpty then root
      else
        { root with
          data :=
            { root.data with
              flowRate := (root :: rest).foldl (fun acc x => acc + x.data.flowRate) 0 } }

/-- `uniqEdges`: group the candidates by id and merge each group. -/
def uniqEdges (data : QueryData) : List PartialEdge :=
  (groupValues (fun x => x.id) (edgesButRedundant data)).filterMap mergeEdgeGroup

/-- Lexicographic strict comparison of char lists by code point: JS `<` on the
(ASCII) address strings compared by `Array.prototype.sort`'s default
comparator. -/
def strLtb : List Char → List Char → Bool
  | [], [] => false
  | [], _ :: _ => true
  | _ :: _, [] => false
  | a :: as, b :: bs =>
    if a.val < b.val then true else if b.val < a.val then false else strLtb as bs

/-- `[source, target].sort().join("-")`: the unordered-endpoint-pair key. -/
def pairKey (source target : String) : String :=
  if strLtb target.data source.data then target ++ "-" ++ source
  else source ++ "-" ++ target

/-- Finalization of one edge: animated + floating tags and the parallel-edge
metadata looked up in the `groupBy` of `uniq` by unordered endpoint pair (the
group holds exactly the surviving edges with this edge's key, in `uniq`'s
order; `indexOf` finds this edge's position in it). -/
def finalizeEdge (uniq : List PartialEdge) (x : PartialEdge) : MyEdge :=
  let key := pairKey x.source x.target
  let grp := uniq.filter (fun y => pairKey y.source y.target = key)
  { id := x.id
    source := x.source
    target := x.target
    animated := true
    type := "floating"
    data :=
      { token := x.data.token
        flowRate := x.data.flowRate
        something := { length := grp.length, index := grp.indexOf x } } }

/-- `mapEdges`. -/
def mapEdges (data : QueryData) : List MyEdge :=
  (uniqEdges data).map (finalizeEdge (uniqEdges data))

/-- `dataMapper`: the source reads `data._meta!.block` unconditionally, so an
absent `_meta` is a runtime TypeError, modelled as `none`. -/
def dataMapper (getAddress shortenHex : String → String) (chain : Int)
    (data : QueryData) : Option MyMappedData :=
  match data._meta with
  | none => none
  | some m =>
    some
      { nodes := mapNodes chain getAddress shortenHex data
        edges := mapEdges data
        latestBlock := some { number := m.number, timestamp := m.timestamp } }

/-! ## Concrete snapshots used to instantiate the theorems -/

/-- A token used by the concrete snapshots. -/
def tokenW : Token := { id := "t", symbol := "T" }

/-- Pool of the C1 scenario: flow rate 1000, total units 200. -/
def poolW : PoolRef :=
  { id := "p", token := tokenW, flowRate := 1000, totalUnits := 200,
    createdAtBlockNumber := 1, createdAtTimestamp := 1,
    updatedAtBlockNumber := 1, updatedAtTimestamp := 1 }

/-- Membership of the C1 scenario: units 50. -/
def memberW : PoolMember :=
  { pool := poolW, account := { id := "a", isSuperApp := false }, units := 50,
    createdAtBlockNumber := 2, createdAtTimestamp := 2,
    updatedAtBlockNumber := 2, updatedAtTimestamp := 2 }

/-- One-membership snapshot (C1). -/
def dataW1 : QueryData :=
  { selectedAccounts := [], selectedPools := [], poolMembers := [memberW],
    poolDistributors := [], streams := [], _meta := none }

/-- Membership with zero units (C9). -/
def memberW0 : PoolMember := { memberW with units := 0 }

/-- One-membership snapshot with zero units (C9). -/
def dataW9 : QueryData := { dataW1 with poolMembers := [memberW0] }

/-- A stream a→b of rate 100. -/
def streamAB : PaymentStream :=
  { token := tokenW, sender := { id := "a", isSuperApp := false },
    receiver := { id := "b", isSuperApp := false }, currentFlowRate := 100,
    createdAtBlockNumber := 3, createdAtTimestamp := 3,
    updatedAtBlockNumber := 4, updatedAtTimestamp := 4 }

/-- A second stream a→b of rate 30 (C5: same composite id as `streamAB`). -/
def streamAB30 : PaymentStream := { streamAB with currentFlowRate := 30 }

/-- Snapshot with two same-direction streams (C5). -/
def dataW5 : QueryData :=
  { selectedAccounts := [], selectedPools := [], poolMembers := [],
    poolDistributors := [], streams := [streamAB, streamAB30], _meta := none }

/-- The single merged edge `mapEdges` produces for `dataW5`. -/
def edgeW5 : MyEdge :=
  { id := "t-a-b", source := "a", target := "b", animated := true,
    type := "floating",
    data := { token := tokenW, flowRate := 130,
              something := { length := 1, index := 0 } } }

/-- The opposite stream b→a of rate 30 (C6 scenario). -/
def streamBA : PaymentStream :=
  { streamAB with
    sender := { id := "b", isSuperApp := false }
    receiver := { id := "a", isSuperApp := false }
    currentFlowRate := 30 }

/-- Snapshot with one stream in each direction (C6). -/
def dataW6 : QueryData := { dataW5 with streams := [streamAB, streamBA] }

/-- First output edge for `dataW6`: a→b, two parallel edges, position 0. -/
def edgeW6a : MyEdge :=
  { id := "t-a-b", source := "a", target := "b", animated := true,
    type := "floating",
    data := { token := tokenW, flowRate := 100,
              something := { length := 2, index := 0 } } }

/-- Second output edge for `dataW6`: b→a, two parallel edges, position 1. -/
def edgeW6b : MyEdge :=
  { id := "t-b-a", source := "b", target := "a", animated := true,
    type := "floating",
    data := { token := tokenW, flowRate := 30,
              something := { length := 2, index := 1 } } }

/-- The single balance snapshot of the C8 account. -/
def snapshotW : AccountTokenSnapshot :=
  { createdAtBlockNumber := 1, createdAtTimestamp := 1,
    updatedAtBlockNumber := 9, updatedAtTimestamp := 9 }

/-- Selected account with one balance snapshot (C8). -/
def accountW : Account :=
  { id := "a", isSuperApp := false, createdAtBlockNumber := 5,
    createdAtTimestamp := 6, updatedAtBlockNumber := 7, updatedAtTimestamp := 8,
    accountTokenSnapshots := [snapshotW] }

/-- Snapshot where account "a" is both selected and a stream sender (C8). -/
def dataW8 : QueryData :=
  { selectedAccounts := [accountW], selectedPools := [], poolMembers := [],
    poolDistributors := [], streams := [streamAB], _meta := none }

/-- The merged output node for id "a" in `dataW8`. -/
def nodeW8 : MyNode :=
  { id := "a"
    data :=
      { chain := 1
        address := "a"
        isPool := some false
        isSelected := some true
        label := "a"
        isSuperApp := some false
        createdAtBlockNumber := JSNum.fin 1
        createdAtTimestamp := JSNum.fin 1
        updatedAtBlockNumber := JSNum.fin 9
        updatedAtTimestamp := JSNum.fin 9 }
    type := "custom"
    posX := 0
    posY := 0 }

/-- Selected account with NO balance snapshots (C2): its own fields are
5/6/7/8. -/
def accountW2 : Account := { accountW with accountTokenSnapshots := [] }

/-- Snapshot whose only entity is the snapshotless selected account (C2). -/
def dataW2 : QueryData :=
  { dataW8 with selectedAccounts := [accountW2], streams := [] }

/-- A selected pool with no embedded relations (C4). -/
def poolOnlyW : SelectedPool :=
  { id := "p", createdAtBlockNumber := 1, createdAtTimestamp := 1,
    updatedAtBlockNumber := 1, updatedAtTimestamp := 1, poolMembers := [],
    poolDistributors := [] }

/-- A replacement selected pool with different id and top-level fields but the
same (empty) embedded lists (C4). -/
def poolOnlyW2 : SelectedPool :=
  { poolOnlyW with id := "q", createdAtBlockNumber := 99 }

/-- Snapshot where pool "p" appears only in `selectedPools` (C4). -/
def dataW4 : QueryData :=
  { selectedAccounts := [], selectedPools := [poolOnlyW], poolMembers := [],
    poolDistributors := [], streams := [streamAB], _meta := none }

/-- Empty snapshot without head-block metadata (C3). -/
def dataW3 : QueryData :=
  { selectedAccounts := [], selectedPools := [], poolMembers := [],
    poolDistributors := [], streams := [], _meta := none }

/-- Head-block metadata for the C3 witness. -/
def metaW : BlockMeta := { number := 42, timestamp := 100 }

/-- Empty snapshot WITH head-block metadata (C3). -/
def dataW3m : QueryData := { dataW3 with _meta := some metaW }

/-- The result `dataMapper` produces for `dataW3m`. -/
def resultW3m : MyMappedData :=
  { nodes := [], edges := [], latestBlock := some metaW }

/-! ## Helper lemmas on the grouping machinery -/

/-- Membership in the key accumulator of `keysInOrder`. -/
theorem mem_keysInOrder_aux {α : Type} (key : α → String) (l : List α) :
    ∀ (acc : List String) (k : String),
      (k ∈ l.foldl (fun acc x => if key x ∈ acc then acc else acc ++ [key x]) acc ↔
        (k ∈ acc ∨ ∃ x ∈ l, key x = k)) := by
  induction l with
  | nil => intro acc k; simp
  | cons y ys ih =>
    intro acc k
    simp only [List.foldl_cons]
    rw [ih, List.exists_mem_cons_iff]
    by_cases hy : key y ∈ acc
    · rw [if_pos hy]
      constructor
      · rintro (h | h)
        · exact Or.inl h
        · exact Or.inr (Or.inr h)
      · rintro (h | hk | h)
        · exact Or.inl h
        · exact Or.inl (hk ▸ hy)
        · exact Or.inr h
    · rw [if_neg hy]
      constructor
      · rintro (h | h)
        · rcases List.mem_append.mp h with h' | h'
          · exact Or.inl h'
          · exact Or.inr (Or.inl (List.mem_singleton.mp h').symm)
        · exact Or.inr (Or.inr h)
      · rintro (h | hk | h)
        · exact Or.inl (List.mem_append_left _ h)
        · exact Or.inl (List.mem_append_right _ (List.mem_singleton.mpr hk.symm))
        · exact Or.inr h

/-- A key occurs in `keysInOrder key l` exactly when some element of `l` bears
it. -/
theorem mem_keysInOrder {α : Type} {key : α → String} {l : List α} {k : String} :
    k ∈ keysInOrder key l ↔ ∃ x ∈ l, key x = k := by
  rw [keysInOrder, mem_keysInOrder_aux]
  simp

/-- The accumulator of `keysInOrder` stays duplicate-free. -/
theorem keysInOrder_nodup_aux {α : Type} (key : α → String) (l : List α) :
    ∀ acc : List String, acc.Nodup →
      (l.foldl (fun acc x => if key x ∈ acc then acc else acc ++ [key x]) acc).Nodup := by
  induction l with
  | nil => intro acc h; exact h
  | cons y ys ih =>
    intro acc h
    simp only [List.foldl_cons]
    by_cases hy : key y ∈ acc
    · rw [if_pos hy]; exact ih acc h
    · rw [if_neg hy]
      refine ih _ (List.nodup_append.mpr ⟨h, List.nodup_singleton _, ?_⟩)
      intro a ha hb
      exact hy ((List.mem_singleton.mp hb) ▸ ha)

/-- `keysInOrder` never repeats a key. -/
theorem keysInOrder_nodup {α : Type} (key : α → String) (l : List α) :
    (keysInOrder key l).Nodup :=
  keysInOrder_nodup_aux key l [] List.nodup_nil

/-- A `filterMap` that hits `some` on every input, with `g` recovering the
input, is inverted by mapping `g`. -/
theorem filterMap_map_of_some {β : Type} {f : String → Option β} {g : β → String} :
    ∀ ks : List String, (∀ k ∈ ks, ∃ b, f k = some b ∧ g b = k) →
      (ks.filterMap f).map g = ks := by
  intro ks
  induction ks with
  | nil => intro _; rfl
  | cons k ks ih =>
    intro h
    obtain ⟨b, hb, hg⟩ := h k (List.mem_cons_self k ks)
    rw [List.filterMap_cons, hb, List.map_cons, hg,
      ih (fun k' hk' => h k' (List.mem_cons_of_mem _ hk'))]

/-- Unpack membership in a grouped-and-merged list: the element comes from the
(nonempty) group of some key. -/
theorem mem_groupValues_filterMap {α β : Type} {key : α → String}
    {merge : List α → Option β} {l : List α} {b : β}
    (hb : b ∈ (groupValues key l).filterMap merge) :
    ∃ k root rest, k ∈ keysInOrder key l ∧
      l.filter (fun x => key x = k) = root :: rest ∧ key root = k ∧
      merge (root :: rest) = some b := by
  rw [groupValues, List.filterMap_map] at hb
  obtain ⟨k, hk, hmerge⟩ := List.mem_filterMap.mp hb
  obtain ⟨x, hx, hxk⟩ := mem_keysInOrder.mp hk
  cases hfil : l.filter (fun x => key x = k) with
  | nil =>
    exfalso
    have hmem : x ∈ l.filter (fun x => key x = k) :=
      List.mem_filter.mpr ⟨hx, by simp [hxk]⟩
    rw [hfil] at hmem
    simp at hmem
  | cons root rest =>
    refine ⟨k, root, rest, hk, hfil, ?_, ?_⟩
    · have hmem : root ∈ l.filter (fun x => key x = k) :=
        hfil ▸ List.mem_cons_self _ _
      exact of_decide_eq_true (List.mem_filter.mp hmem).2
    · simpa [Function.comp, hfil] using hmerge

/-- A `reduce` of boolean OR is `any`. -/
theorem foldl_or_eq_any {α : Type} (p : α → Bool) :
    ∀ (l : List α) (b : Bool), l.foldl (fun acc x => acc || p x) b = (b || l.any p) := by
  intro l
  induction l with
  | nil => intro b; simp
  | cons x xs ih => intro b; simp [List.foldl_cons, ih, Bool.or_assoc]

/-- What `mergeNodeGroup` produces on a nonempty group: the root's id, OR-ed
flags (an absent flag reading as false), MIN/MAX block and timestamp fields. -/
theorem mergeNodeGroup_spec {root : PartialNode} {rest : List PartialNode} {b : PartialNode}
    (h : mergeNodeGroup (root :: rest) = some b) :
    b.id = root.id ∧
    b.data.isPool.getD false = (root :: rest).any (fun x => x.data.isPool.getD false) ∧
    b.data.isSuperApp.getD false = (root :: rest).any (fun x => x.data.isSuperApp.getD false) ∧
    b.data.isSelected.getD false = (root :: rest).any (fun x => x.data.isSelected.getD false) := by
  rw [mergeNodeGroup, Option.some_inj] at h
  cases rest with
  | nil =>
    rw [if_pos (by simp)] at h
    subst h
    simp
  | cons r rs =>
    rw [if_neg (by simp)] at h
    subst h
    refine ⟨rfl, by simp, by simp, ?_⟩
    simp [foldl_or_eq_any, Bool.or_assoc]

/-- What `mergeEdgeGroup` produces on a nonempty group: the root's id and
endpoints, and in every case the flow rate is the group sum (a singleton group
is kept as-is and `0 + flowRate = flowRate`). -/
theorem mergeEdgeGroup_spec {root : PartialEdge} {rest : List PartialEdge} {b : PartialEdge}
    (h : mergeEdgeGroup (root :: rest) = some b) :
    b.id = root.id ∧ b.source = root.source ∧ b.target = root.target ∧
    b.data.flowRate = (root :: rest).foldl (fun acc x => acc + x.data.flowRate) 0 := by
  rw [mergeEdgeGroup, Option.some_inj] at h
  cases rest with
  | nil =>
    rw [if_pos (by simp)] at h
    subst h
    simp
  | cons r rs =>
    rw [if_neg (by simp)] at h
    subst h
    exact ⟨rfl, rfl, rfl, rfl⟩

/-- The ids of the merged node list are exactly the candidate keys, in first
occurrence order. -/
theorem uniqMergedNodes_map_id (l : List PartialNode) :
    (uniqMergedNodes l).map (fun n => n.id) = keysInOrder (fun x => x.id) l := by
  rw [uniqMergedNodes, groupValues, List.filterMap_map]
  apply filterMap_map_of_some
  intro k hk
  obtain ⟨x, hx, hxk⟩ := mem_keysInOrder.mp hk
  cases hfil : l.filter (fun x => x.id = k) with
  | nil =>
    exfalso
    have hmem : x ∈ l.filter (fun x => x.id = k) :=
      List.mem_filter.mpr ⟨hx, by simp [hxk]⟩
    rw [hfil] at hmem
    simp at hmem
  | cons root rest =>
    obtain ⟨b, hb⟩ : ∃ b, mergeNodeGroup (root :: rest) = some b := ⟨_, rfl⟩
    have hroot : root.id = k := by
      have hmem : root ∈ l.filter (fun x => x.id = k) := hfil ▸ List.mem_cons_self _ _
      exact of_decide_eq_true (List.mem_filter.mp hmem).2
    exact ⟨b, by simpa [Function.comp, hfil] using hb,
      (mergeNodeGroup_spec hb).1.trans hroot⟩

/-- The ids of the deduplicated edge list are exactly the candidate keys, in
first occurrence order. -/
theorem uniqEdges_map_id (data : QueryData) :
    (uniqEdges data).map (fun e => e.id) =
      keysInOrder (fun x => x.id) (edgesButRedundant data) := by
  rw [uniqEdges, groupValues, List.filterMap_map]
  apply filterMap_map_of_some
  intro k hk
  obtain ⟨x, hx, hxk⟩ := mem_keysInOrder.mp hk
  cases hfil : (edgesButRedundant data).filter (fun x => x.id = k) with
  | nil =>
    exfalso
    have hmem : x ∈ (edgesButRedundant data).filter (fun x => x.id = k) :=
      List.mem_filter.mpr ⟨hx, by simp [hxk]⟩
    rw [hfil] at hmem
    simp at hmem
  | cons root rest =>
    obtain ⟨b, hb⟩ : ∃ b, mergeEdgeGroup (root :: rest) = some b := ⟨_, rfl⟩
    have hroot : root.id = k := by
      have hmem : root ∈ (edgesButRedundant data).filter (fun x => x.id = k) :=
        hfil ▸ List.mem_cons_self _ _
      exact of_decide_eq_true (List.mem_filter.mp hmem).2
    exact ⟨b, by simpa [Function.comp, hfil] using hb,
      (mergeEdgeGroup_spec hb).1.trans hroot⟩

/-- The node ids produced by `mapNodes` are the candidate keys (finalization
keeps ids). -/
theorem mapNodes_map_id (chain : Int) (f g : String → String) (data : QueryData) :
    (mapNodes chain f g data).map (fun n => n.id) =
      keysInOrder (fun x => x.id) (nodesButRedundant data) := by
  rw [mapNodes, List.map_map]
  exact uniqMergedNodes_map_id (nodesButRedundant data)

/-- Unpack membership in `mapNodes`: every output node is the finalization of
the merge of the (nonempty) candidate group sharing its id. -/
theorem mem_mapNodes {chain : Int} {f g : String → String} {data : QueryData}
    {n : MyNode} (hn : n ∈ mapNodes chain f g data) :
    ∃ root rest b,
      (nodesButRedundant data).filter (fun x => x.id = n.id) = root :: rest ∧
      mergeNodeGroup (root :: rest) = some b ∧ n = finalizeNode chain f g b := by
  rw [mapNodes] at hn
  obtain ⟨b, hb, hfin⟩ := List.mem_map.mp hn
  obtain ⟨k, root, rest, hk, hfil, hrk, hmerge⟩ :=
    mem_groupValues_filterMap (by rwa [uniqMergedNodes] at hb)
  have hbid : b.id = k := (mergeNodeGroup_spec hmerge).1.trans hrk
  have hid : n.id = k := by rw [← hfin]; exact hbid
  refine ⟨root, rest, b, ?_, hmerge, hfin.symm⟩
  rw [hid]
  exact hfil

/-- Unpack membership in `uniqEdges`: every deduplicated edge is the merge of
the (nonempty) candidate group sharing its id. -/
theorem mem_uniqEdges {data : QueryData} {x : PartialEdge} (hx : x ∈ uniqEdges data) :
    ∃ root rest,
      (edgesButRedundant data).filter (fun c => c.id = x.id) = root :: rest ∧
      mergeEdgeGroup (root :: rest) = some x := by
  obtain ⟨k, root, rest, hk, hfil, hrk, hmerge⟩ :=
    mem_groupValues_filterMap (by rwa [uniqEdges] at hx)
  have hxid : x.id = k := (mergeEdgeGroup_spec hmerge).1.trans hrk
  refine ⟨root, rest, ?_, hmerge⟩
  rw [hxid]
  exact hfil

/-- Every node candidate's id is the id of an account, pool, distributor,
sender or receiver of some contributing relation. -/
theorem mem_nodesButRedundant_id {data : QueryData} {c : PartialNode}
    (hc : c ∈ nodesButRedundant data) :
    (∃ a ∈ data.selectedAccounts, a.id = c.id) ∨
    (∃ m ∈ allPoolMembers data, m.pool.id = c.id ∨ m.account.id = c.id) ∨
    (∃ d ∈ allPoolDistributors data, d.pool.id = c.id ∨ d.account.id = c.id) ∨
    (∃ s ∈ data.streams, s.sender.id = c.id ∨ s.receiver.id = c.id) := by
  rw [nodesButRedundant] at hc
  rcases List.mem_append.mp hc with hc1 | hs
  · rcases List.mem_append.mp hc1 with hc2 | hd
    · rcases List.mem_append.mp hc2 with ha | hm
      · obtain ⟨a, ha2, rfl⟩ := List.mem_map.mp ha
        exact Or.inl ⟨a, ha2, rfl⟩
      · rw [nodesFromPoolMembers] at hm
        obtain ⟨l, hl, hcl⟩ := List.mem_flatten.mp hm
        obtain ⟨m, hm2, rfl⟩ := List.mem_map.mp hl
        simp only [List.mem_cons, List.not_mem_nil, or_false] at hcl
        rcases hcl with rfl | rfl
        · exact Or.inr (Or.inl ⟨m, hm2, Or.inl rfl⟩)
        · exact Or.inr (Or.inl ⟨m, hm2, Or.inr rfl⟩)
    · rw [nodesFromPoolDistributors] at hd
      obtain ⟨l, hl, hcl⟩ := List.mem_flatten.mp hd
      obtain ⟨d, hd2, rfl⟩ := List.mem_map.mp hl
      simp only [List.mem_cons, List.not_mem_nil, or_false] at hcl
      rcases hcl with rfl | rfl
      · exact Or.inr (Or.inr (Or.inl ⟨d, hd2, Or.inl rfl⟩))
      · exact Or.inr (Or.inr (Or.inl ⟨d, hd2, Or.inr rfl⟩))
  · rw [nodesFromStreams] at hs
    obtain ⟨l, hl, hcl⟩ := List.mem_flatten.mp hs
    obtain ⟨s, hs2, rfl⟩ := List.mem_map.mp hl
    simp only [List.mem_cons, List.not_mem_nil, or_false] at hcl
    rcases hcl with rfl | rfl
    · exact Or.inr (Or.inr (Or.inr ⟨s, hs2, Or.inr rfl⟩))
    · exact Or.inr (Or.inr (Or.inr ⟨s, hs2, Or.inl rfl⟩))

/-- Both endpoints of every edge candidate are ids of node candidates (each
relation that emits an edge also emits node candidates for both parties). -/
theorem edge_endpoints_are_candidate_ids {data : QueryData} {c : PartialEdge}
    (hc : c ∈ edgesButRedundant data) :
    (∃ nc ∈ nodesButRedundant data, nc.id = c.source) ∧
    (∃ nc ∈ nodesButRedundant data, nc.id = c.target) := by
  have hmemN : ∀ m ∈ allPoolMembers data,
      memberPoolNode m ∈ nodesButRedundant data ∧
      memberAccountNode m ∈ nodesButRedundant data := by
    intro m hm
    constructor <;>
      exact List.mem_append_left _ (List.mem_append_left _ (List.mem_append_right _
        (List.mem_flatten.mpr ⟨_, List.mem_map_of_mem _ hm, by simp⟩)))
  have hdisN : ∀ d ∈ allPoolDistributors data,
      distributorPoolNode d ∈ nodesButRedundant data ∧
      distributorAccountNode d ∈ nodesButRedundant data := by
    intro d hd
    constructor <;>
      exact List.mem_append_left _ (List.mem_append_right _
        (List.mem_flatten.mpr ⟨_, List.mem_map_of_mem _ hd, by simp⟩))
  have hstrN : ∀ s ∈ data.streams,
      streamSenderNode s ∈ nodesButRedundant data ∧
      streamReceiverNode s ∈ nodesButRedundant data := by
    intro s hs
    constructor <;>
      exact List.mem_append_right _
        (List.mem_flatten.mpr ⟨_, List.mem_map_of_mem _ hs, by simp⟩)
  rw [edgesButRedundant] at hc
  rcases List.mem_append.mp hc with hc1 | hd
  · rcases List.mem_append.mp hc1 with hm | hs
    · obtain ⟨m, hm2, rfl⟩ := List.mem_map.mp hm
      exact ⟨⟨memberPoolNode m, (hmemN m hm2).1, rfl⟩,
        ⟨memberAccountNode m, (hmemN m hm2).2, rfl⟩⟩
    · obtain ⟨s, hs2, rfl⟩ := List.mem_map.mp hs
      exact ⟨⟨streamSenderNode s, (hstrN s hs2).1, rfl⟩,
        ⟨streamReceiverNode s, (hstrN s hs2).2, rfl⟩⟩
  · obtain ⟨d, hd2, rfl⟩ := List.mem_map.mp hd
    exact ⟨⟨distributorAccountNode d, (hdisN d hd2).2, rfl⟩,
      ⟨distributorPoolNode d, (hdisN d hd2).1, rfl⟩⟩

/-- A candidate id always surfaces as an output node id. -/
theorem candidate_id_has_node (chain : Int) (f g : String → String)
    (data : QueryData) {k : String} (h : ∃ c ∈ nodesButRedundant data, c.id = k) :
    ∃ n ∈ mapNodes chain f g data, n.id = k := by
  obtain ⟨c, hc, hck⟩ := h
  have hk : k ∈ keysInOrder (fun x => x.id) (nodesButRedundant data) :=
    mem_keysInOrder.mpr ⟨c, hc, hck⟩
  rw [← mapNodes_map_id chain f g data] at hk
  obtain ⟨n, hn, hnk⟩ := List.mem_map.mp hk
  exact ⟨n, hn, hnk⟩

/-! ## The claims -/

/-- C1: every pool membership (from the flat list or embedded in a selected
pool) with units > 0 yields an extracted edge candidate whose flow rate is
`pool.flowRate * pool.totalUnits / member.units`, with exact integer division
truncating toward zero (`Int.tdiv`, the semantics of JS `BigInt` division). -/
theorem C1_member_flow_rate_formula (data : QueryData) (x : PoolMember)
    (hx : x ∈ allPoolMembers data) (hu : 0 < x.units) :
    ∃ c ∈ edgesFromPoolMembers data,
      c.id = x.pool.token.id ++ "-" ++ x.pool.id ++ "-" ++ x.account.id ∧
      c.source = x.pool.id ∧ c.target = x.account.id ∧
      c.data.flowRate = Int.tdiv (x.pool.flowRate * x.pool.totalUnits) x.units := by
  refine ⟨memberEdge x, List.mem_map_of_mem _ hx, rfl, rfl, rfl, ?_⟩
  simp [memberEdge, if_pos hu]

/-- C9: every pool membership with units = 0 yields an extracted edge
candidate with flow rate 0, whatever the pool's flow rate and total units; the
guard keeps the proportional-share division from ever running with a zero
divisor. -/
theorem C9_zero_units_guard (data : QueryData) (x : PoolMember)
    (hx : x ∈ allPoolMembers data) (hu : x.units = 0) :
    ∃ c ∈ edgesFromPoolMembers data,
      c.source = x.pool.id ∧ c.target = x.account.id ∧ c.data.flowRate = 0 := by
  refine ⟨memberEdge x, List.mem_map_of_mem _ hx, rfl, rfl, ?_⟩
  simp [memberEdge, hu]

/-- C5: every output edge's flow rate is the exact big-integer sum of the flow
rates of all raw edge candidates (memberships, streams, distributorships)
sharing its id. -/
theorem C5_edge_flow_conservation (data : QueryData) (e : MyEdge)
    (he : e ∈ mapEdges data) :
    e.data.flowRate =
      ((edgesButRedundant data).filter (fun c => c.id = e.id)).foldl
        (fun acc c => acc + c.data.flowRate) 0 := by
  obtain ⟨x, hx, hfin⟩ := List.mem_map.mp he
  obtain ⟨root, rest, hfil, hmerge⟩ := mem_uniqEdges hx
  obtain ⟨hid, hsrc, htgt, hflow⟩ := mergeEdgeGroup_spec hmerge
  have hefid : e.id = x.id := by rw [← hfin]; rfl
  have heflow : e.data.flowRate = x.data.flowRate := by rw [← hfin]; rfl
  rw [heflow, hefid, hfil]
  exact hflow

/-- C7: no two output nodes share an id, and an id occurs among the output
nodes exactly when some contributing relation emitted a candidate bearing
it. -/
theorem C7_node_uniqueness (chain : Int) (f g : String → String)
    (data : QueryData) :
    ((mapNodes chain f g data).map (fun n => n.id)).Nodup ∧
    ∀ k : String,
      (∃ n ∈ mapNodes chain f g data, n.id = k) ↔
        ∃ c ∈ nodesButRedundant data, c.id = k := by
  constructor
  · rw [mapNodes_map_id]
    exact keysInOrder_nodup _ _
  · intro k
    constructor
    · rintro ⟨n, hn, rfl⟩
      have hmem : n.id ∈ (mapNodes chain f g data).map (fun n => n.id) :=
        List.mem_map_of_mem _ hn
      rw [mapNodes_map_id] at hmem
      exact mem_keysInOrder.mp hmem
    · exact candidate_id_has_node chain f g data

/-- C8: each of the three flags of an output node is the logical OR of that
flag (JS truthiness: an absent optional flag reads as false) across all
candidates sharing the node's id. -/
theorem C8_flag_disjunction (chain : Int) (f g : String → String)
    (data : QueryData) (n : MyNode) (hn : n ∈ mapNodes chain f g data) :
    n.data.isPool.getD false =
      ((nodesButRedundant data).filter (fun c => c.id = n.id)).any
        (fun c => c.data.isPool.getD false) ∧
    n.data.isSuperApp.getD false =
      ((nodesButRedundant data).filter (fun c => c.id = n.id)).any
        (fun c => c.data.isSuperApp.getD false) ∧
    n.data.isSelected.getD false =
      ((nodesButRedundant data).filter (fun c => c.id = n.id)).any
        (fun c => c.data.isSelected.getD false) := by
  obtain ⟨root, rest, b, hfil, hmerge, hfin⟩ := mem_mapNodes hn
  obtain ⟨hid, hpool, happ, hsel⟩ := mergeNodeGroup_spec hmerge
  subst hfin
  rw [hfil]
  exact ⟨hpool, happ, hsel⟩

/-- C10: the produced graph has no dangling endpoints: each output edge's
source id and target id are ids of output nodes. -/
theorem C10_no_dangling_endpoints (chain : Int) (f g : String → String)
    (data : QueryData) (e : MyEdge) (he : e ∈ mapEdges data) :
    (∃ n ∈ mapNodes chain f g data, n.id = e.source) ∧
    (∃ n ∈ mapNodes chain f g data, n.id = e.target) := by
  obtain ⟨x, hx, hfin⟩ := List.mem_map.mp he
  obtain ⟨root, rest, hfil, hmerge⟩ := mem_uniqEdges hx
  have hroot : root ∈ edgesButRedundant data := by
    have hmem : root ∈ (edgesButRedundant data).filter (fun c => c.id = x.id) :=
      hfil ▸ List.mem_cons_self _ _
    exact List.mem_of_mem_filter hmem
  obtain ⟨hsrcN, htgtN⟩ := edge_endpoints_are_candidate_ids hroot
  have hes : e.source = root.source := by
    rw [← hfin]
    exact (mergeEdgeGroup_spec hmerge).2.1
  have het : e.target = root.target := by
    rw [← hfin]
    exact (mergeEdgeGroup_spec hmerge).2.2.1

  rw [hes, het]
  exact ⟨candidate_id_has_node chain f g data hsrcN,
    candidate_id_has_node chain f g data htgtN⟩

/-- C6: for the output edge list, each edge's parallel-edge metadata is
consistent: `index < length`, `length` is the number of output edges sharing
the edge's unordered endpoint pair, and `index` is distinct between distinct
edges sharing that pair. -/
theorem C6_parallel_metadata (data : QueryData) (e e' : MyEdge)
    (he : e ∈ mapEdges data) (he' : e' ∈ mapEdges data) :
    e.data.something.index < e.data.something.length ∧
    e.data.something.length =
      ((mapEdges data).filter
        (fun y => pairKey y.source y.target = pairKey e.source e.target)).length ∧
    (pairKey e'.source e'.target = pairKey e.source e.target → e' ≠ e →
      e'.data.something.index ≠ e.data.something.index) := by
  obtain ⟨x, hx, hfinx⟩ := List.mem_map.mp he
  obtain ⟨y, hy, hfiny⟩ := List.mem_map.mp he'
  subst hfinx
  subst hfiny
  refine ⟨?_, ?_, ?_⟩
  · show ((uniqEdges data).filter
        (fun z => pairKey z.source z.target = pairKey x.source x.target)).indexOf x <
      ((uniqEdges data).filter
        (fun z => pairKey z.source z.target = pairKey x.source x.target)).length
    exact List.indexOf_lt_length.mpr (List.mem_filter.mpr ⟨hx, by simp⟩)
  · show ((uniqEdges data).filter
        (fun z => pairKey z.source z.target = pairKey x.source x.target)).length =
      ((mapEdges data).filter
        (fun z => pairKey z.source z.target = pairKey x.source x.target)).length
    rw [mapEdges, List.filter_map, List.length_map]
    exact rfl
  · intro hkey hne
    have hk : pairKey y.source y.target = pairKey x.source x.target := hkey
    show ((uniqEdges data).filter
        (fun z => pairKey z.source z.target = pairKey y.source y.target)).indexOf y ≠
      ((uniqEdges data).filter
        (fun z => pairKey z.source z.target = pairKey x.source x.target)).indexOf x
    rw [hk]
    have hxg : x ∈ (uniqEdges data).filter
        (fun z => pairKey z.source z.target = pairKey x.source x.target) :=
      List.mem_filter.mpr ⟨hx, by simp⟩
    have hyg : y ∈ (uniqEdges data).filter
        (fun z => pairKey z.source z.target = pairKey x.source x.target) :=
      List.mem_filter.mpr ⟨hy, by simp [hk]⟩
    intro heq
    exact hne (congrArg (finalizeEdge (uniqEdges data)) ((List.indexOf_inj hyg hxg).mp heq))

/-- C4: selected pools contribute no standalone node candidate: a selected
pool whose id occurs in no contributing relation yields no output node, and
replacing the selected pools by any list with the same embedded membership and
distributorship lists leaves `mapNodes` unchanged — the selected-pool
candidates' own fields and isPool/isSelected markings never reach the
output. -/
theorem C4_selected_pools_gate_only (chain : Int) (f g : String → String)
    (data : QueryData) (p : SelectedPool) (ps : List SelectedPool)
    (_hp : p ∈ data.selectedPools)
    (hacc : ∀ a ∈ data.selectedAccounts, a.id ≠ p.id)
    (hmem : ∀ m ∈ allPoolMembers data, m.pool.id ≠ p.id ∧ m.account.id ≠ p.id)
    (hdis : ∀ d ∈ allPoolDistributors data, d.pool.id ≠ p.id ∧ d.account.id ≠ p.id)
    (hstr : ∀ s ∈ data.streams, s.sender.id ≠ p.id ∧ s.receiver.id ≠ p.id)
    (hps1 : ps.map (fun x => x.poolMembers) =
      data.selectedPools.map (fun x => x.poolMembers))
    (hps2 : ps.map (fun x => x.poolDistributors) =
      data.selectedPools.map (fun x => x.poolDistributors)) :
    p.id ∉ (mapNodes chain f g data).map (fun n => n.id) ∧
    mapNodes chain f g { data with selectedPools := ps } =
      mapNodes chain f g data := by
  constructor
  · rw [mapNodes_map_id]
    intro hmem'
    obtain ⟨c, hc, hcid⟩ := mem_keysInOrder.mp hmem'
    rcases mem_nodesButRedundant_id hc with ⟨a, ha, haid⟩ | ⟨m, hm, hmid⟩ |
      ⟨d, hd, hdid⟩ | ⟨s, hs, hsid⟩
    · exact hacc a ha (haid.trans hcid)
    · rcases hmid with h | h
      · exact (hmem m hm).1 (h.trans hcid)
      · exact (hmem m hm).2 (h.trans hcid)
    · rcases hdid with h | h
      · exact (hdis d hd).1 (h.trans hcid)
      · exact (hdis d hd).2 (h.trans hcid)
    · rcases hsid with h | h
      · exact (hstr s hs).1 (h.trans hcid)
      · exact (hstr s hs).2 (h.trans hcid)
  · have h1 : allPoolMembers { data with selectedPools := ps } =
        allPoolMembers data := by
      simp only [allPoolMembers]
      rw [hps1]
    have h2 : allPoolDistributors { data with selectedPools := ps } =
        allPoolDistributors data := by
      simp only [allPoolDistributors]
      rw [hps2]
    simp only [mapNodes, nodesButRedundant, nodesFromAccounts, nodesFromPoolMembers,
      nodesFromPoolDistributors, nodesFromStreams, h1, h2]

/-- C2 (evidence of the code bug): a selected account with no per-token
balance snapshots gets `Infinity` creation fields and `-Infinity` update
fields — `Math.min()` / `Math.max()` over the empty snapshot spread — and NOT
the account's own fields (5/6/7/8 in this snapshot), because `Math.min` /
`Math.max` never return a nullish value and the source's `?? fallback` is
dead code. -/
theorem C2_empty_snapshot_fallback_dead :
    (mapNodes 1 (fun s => s) (fun s => s) dataW2).map
        (fun n => (n.data.createdAtBlockNumber, n.data.createdAtTimestamp,
          n.data.updatedAtBlockNumber, n.data.updatedAtTimestamp)) =
      [(JSNum.posInf, JSNum.posInf, JSNum.negInf, JSNum.negInf)] ∧
    (JSNum.posInf : JSNum) ≠ JSNum.fin accountW2.createdAtBlockNumber ∧
    (JSNum.negInf : JSNum) ≠ JSNum.fin accountW2.updatedAtBlockNumber :=
  ⟨by decide, by decide, by decide⟩

/-- C3 (counterexample): on a snapshot lacking `_meta`, the mapping does not
succeed with `latestBlock` omitted — it fails (the source dereferences
`data._meta!.block`, a runtime TypeError, modelled as `none`). -/
theorem C3_missing_meta_counterexample :
    dataMapper (fun s => s) (fun s => s) 1 dataW3 = none ∧
    ¬ ∃ r, dataMapper (fun s => s) (fun s => s) 1 dataW3 = some r ∧
      r.latestBlock = none := by
  refine ⟨rfl, ?_⟩
  rintro ⟨r, hr, -⟩
  rw [show dataMapper (fun s => s) (fun s => s) 1 dataW3 = none from rfl] at hr
  exact Option.noConfusion hr

/-- C3 (amended): the mapping fails exactly when the snapshot lacks head-block
metadata, and every successful result carries a `latestBlock` — the field is
never simply omitted. -/
theorem C3_missing_meta_amended (f g : String → String) (chain : Int)
    (data : QueryData) :
    (dataMapper f g chain data = none ↔ data._meta = none) ∧
    ∀ r, dataMapper f g chain data = some r → r.latestBlock ≠ none := by
  constructor
  · cases hm : data._meta with
    | none => simp [dataMapper, hm]
    | some m => simp [dataMapper, hm]
  · intro r hr
    cases hm : data._meta with
    | none =>
      rw [dataMapper, hm] at hr
      exact Option.noConfusion hr
    | some m =>
      rw [dataMapper, hm, Option.some_inj] at hr
      rw [← hr]
      simp

/-! ## Witnesses -/

/-- C1 witness: the units=50, totalUnits=200, flowRate=1000 scenario, whose
only output edge carries flow rate 4000. -/
theorem C1_member_flow_rate_formula_witness :
    memberW ∈ allPoolMembers dataW1 ∧ 0 < memberW.units ∧
    (∃ c ∈ edgesFromPoolMembers dataW1,
      c.id = memberW.pool.token.id ++ "-" ++ memberW.pool.id ++ "-" ++
        memberW.account.id ∧
      c.source = memberW.pool.id ∧ c.target = memberW.account.id ∧
      c.data.flowRate =
        Int.tdiv (memberW.pool.flowRate * memberW.pool.totalUnits) memberW.units) ∧
    (mapEdges dataW1).map (fun e => e.data.flowRate) = [4000] :=
  ⟨by decide, by decide,
    C1_member_flow_rate_formula dataW1 memberW (by decide) (by decide), by decide⟩

/-- C9 witness: the same membership with units = 0 yields flow rate 0. -/
theorem C9_zero_units_guard_witness :
    memberW0 ∈ allPoolMembers dataW9 ∧ memberW0.units = 0 ∧
    (∃ c ∈ edgesFromPoolMembers dataW9,
      c.source = memberW0.pool.id ∧ c.target = memberW0.account.id ∧
      c.data.flowRate = 0) ∧
    (mapEdges dataW9).map (fun e => e.data.flowRate) = [0] :=
  ⟨by decide, by decide,
    C9_zero_units_guard dataW9 memberW0 (by decide) (by decide), by decide⟩

/-- C5 witness: two streams a→b with rates 100 and 30 on one token collapse to
one edge whose flow rate is the candidate-group sum 130. -/
theorem C5_edge_flow_conservation_witness :
    edgeW5 ∈ mapEdges dataW5 ∧
    edgeW5.data.flowRate =
      ((edgesButRedundant dataW5).filter (fun c => c.id = edgeW5.id)).foldl
        (fun acc c => acc + c.data.flowRate) 0 ∧
    edgeW5.data.flowRate = 100 + 30 :=
  ⟨by decide, C5_edge_flow_conservation dataW5 edgeW5 (by decide), by decide⟩

/-- C6 witness: one stream a→b of rate 100 and one b→a of rate 30 on the same
token give two distinct edges, both with length 2 and with indices 0 and 1. -/
theorem C6_parallel_metadata_witness :
    edgeW6a ∈ mapEdges dataW6 ∧ edgeW6b ∈ mapEdges dataW6 ∧
    (edgeW6a.data.something.index < edgeW6a.data.something.length ∧
     edgeW6a.data.something.length =
       ((mapEdges dataW6).filter
         (fun y => pairKey y.source y.target =
           pairKey edgeW6a.source edgeW6a.target)).length ∧
     (pairKey edgeW6b.source edgeW6b.target =
         pairKey edgeW6a.source edgeW6a.target → edgeW6b ≠ edgeW6a →
       edgeW6b.data.something.index ≠ edgeW6a.data.something.index)) ∧
    (mapEdges dataW6).map
        (fun e => (e.data.something.length, e.data.something.index)) =
      [(2, 0), (2, 1)] :=
  ⟨by decide, by decide,
    C6_parallel_metadata dataW6 edgeW6a edgeW6b (by decide) (by decide), by decide⟩

/-- C8 witness: account "a" is both a selected account (isSelected set) and a
stream sender (isSelected absent); the merged node's flags are the OR of its
two candidates, in particular isSelected = true. -/
theorem C8_flag_disjunction_witness :
    nodeW8 ∈ mapNodes 1 (fun s => s) (fun s => s) dataW8 ∧
    (nodeW8.data.isPool.getD false =
      ((nodesButRedundant dataW8).filter (fun c => c.id = nodeW8.id)).any
        (fun c => c.data.isPool.getD false) ∧
     nodeW8.data.isSuperApp.getD false =
      ((nodesButRedundant dataW8).filter (fun c => c.id = nodeW8.id)).any
        (fun c => c.data.isSuperApp.getD false) ∧
     nodeW8.data.isSelected.getD false =
      ((nodesButRedundant dataW8).filter (fun c => c.id = nodeW8.id)).any
        (fun c => c.data.isSelected.getD false)) ∧
    nodeW8.data.isSelected.getD false = true :=
  ⟨by decide,
    C8_flag_disjunction 1 (fun s => s) (fun s => s) dataW8 nodeW8 (by decide),
    by decide⟩

/-- C10 witness: both endpoints of the first output edge of the two-stream
snapshot are output node ids. -/
theorem C10_no_dangling_endpoints_witness :
    edgeW6a ∈ mapEdges dataW6 ∧
    ((∃ n ∈ mapNodes 1 (fun s => s) (fun s => s) dataW6, n.id = edgeW6a.source) ∧
     (∃ n ∈ mapNodes 1 (fun s => s) (fun s => s) dataW6, n.id = edgeW6a.target)) :=
  ⟨by decide,
    C10_no_dangling_endpoints 1 (fun s => s) (fun s => s) dataW6 edgeW6a (by decide)⟩

/-- C4 witness: pool "p" is selected but appears in no relation of `dataW4`;
no output node carries its id, and replacing it by a pool with a different id
and top-level fields (same embedded lists) leaves `mapNodes` unchanged. -/
theorem C4_selected_pools_gate_only_witness :
    poolOnlyW ∈ dataW4.selectedPools ∧
    (∀ a ∈ dataW4.selectedAccounts, a.id ≠ poolOnlyW.id) ∧
    (∀ m ∈ allPoolMembers dataW4,
      m.pool.id ≠ poolOnlyW.id ∧ m.account.id ≠ poolOnlyW.id) ∧
    (∀ d ∈ allPoolDistributors dataW4,
      d.pool.id ≠ poolOnlyW.id ∧ d.account.id ≠ poolOnlyW.id) ∧
    (∀ s ∈ dataW4.streams,
      s.sender.id ≠ poolOnlyW.id ∧ s.receiver.id ≠ poolOnlyW.id) ∧
    (poolOnlyW.id ∉ (mapNodes 1 (fun s => s) (fun s => s) dataW4).map
        (fun n => n.id) ∧
      mapNodes 1 (fun s => s) (fun s => s)
          { dataW4 with selectedPools := [poolOnlyW2] } =
        mapNodes 1 (fun s => s) (fun s => s) dataW4) :=
  ⟨by decide, by decide, by decide, by decide, by decide,
    C4_selected_pools_gate_only 1 (fun s => s) (fun s => s) dataW4 poolOnlyW
      [poolOnlyW2] (by decide) (by decide) (by decide) (by decide) (by decide)
      (by decide) (by decide)⟩

/-- C3 amended-claim witness: with `_meta` present the mapping succeeds and
its result carries a `latestBlock`. -/
theorem C3_missing_meta_amended_witness :
    dataMapper (fun s => s) (fun s => s) 1 dataW3m = some resultW3m ∧
    resultW3m.latestBlock ≠ none :=
  ⟨rfl,
    (C3_missing_meta_amended (fun s => s) (fun s => s) 1 dataW3m).2 resultW3m rfl⟩
